import Mathlib

/-!
Verification of the Daily Quest Log plugin engine (src/main.js).

This file is a shallow embedding of the quest-engine core of the plugin:
the XP/leveling ledger (`awardXP`, the player-state part of `uncompleteQuest`,
`calculateXP`, `getXPForNextLevel`), the schedule evaluator (`parseSchedule`,
`isScheduledOnDate`), the timer state machine (`startQuest`, `pauseQuest`,
`resumeQuest`, `getActiveElapsedMinutes`, `getTotalMinutes`), the completion
store (`completeQuest`, `isCompletedToday`), the rollover controller
(`ensureDailyRollover`) and the registry ordering (`reorderQuests`).

Modelling conventions:
- JS numbers carrying minutes or timestamps are rationals (`ℚ`); XP amounts
  are integers (`Int`), since `calculateXP` always returns `Math.round` of a
  number or the integer constant `flatXp`.
- `Date.now()` and `todayStr(resetHour)` read the wall clock; operations take
  the current timestamp `now : ℚ` and the current logical-day string
  `today : Day` as explicit parameters.
- The JS object `timerState.pausedSessions` is read only through
  `(pausedSessions[id] || 0)`, so it is embedded as a total function
  `QID → ℚ` with default `0`; `delete pausedSessions[id]` becomes
  "set to 0", which is observationally identical through that read.
- Fields that are `null` in JS (`activeQuestId`, `startTime`,
  `estimateMinutes`, a missing `order`) are `Option` values.
-/

/- ===================== XP / leveling ledger ===================== -/

/-- Player record (`player: { level, xp }` in `QuestLog.json`). `xp` is an
integer that can transiently go negative inside `uncompleteQuest`. -/
structure Player where
  level : Nat
  xp : Int
deriving DecidableEq, Repr

/-- `XP_CONFIG.xpPerMinute` (src/main.js line 15). -/
def xpPerMinute : ℚ := 1

/-- `XP_CONFIG.flatXp` (src/main.js line 15). -/
def flatXp : Int := 10

/-- `getXPForNextLevel` (src/main.js line 440):
`Math.round(XP_CONFIG.levelingBase * Math.pow(level, 1.5))` with
`levelingBase = 100`, `levelingExponent = 1.5`.  Since
`100 * level ^ 1.5 = Real.sqrt (10000 * level ^ 3)`, rounding it to the
nearest integer gives `s + 1` when `s * s + s + 1 ≤ n` and `s` otherwise,
where `n = 10000 * level ^ 3` and `s = Nat.sqrt n` is the floor of the
square root (the tie `n = s² + s + 1/4` is impossible for an integer `n`,
so `Math.round`'s half-up rule never fires on a tie). -/
def getXPForNextLevel (level : Nat) : Nat :=
  let n := 10000 * level ^ 3
  let s := Nat.sqrt n
  if s * s + s + 1 ≤ n then s + 1 else s

/-- The `while (p.xp >= this.getXPForNextLevel(p.level))` loop of `awardXP`
(src/main.js lines 427-436), with the rank-up notices dropped (purely
observational).  The extra guard `0 < getXPForNextLevel level` totalizes the
loop: in JS the threshold is `0` only at `level = 0`, where the source loop
would not terminate; every reachable player has `level ≥ 1`. -/
def awardLoop (level : Nat) (xp : Int) : Nat × Int :=
  if h : 0 < getXPForNextLevel level ∧ (getXPForNextLevel level : Int) ≤ xp then
    awardLoop (level + 1) (xp - getXPForNextLevel level)
  else
    (level, xp)
termination_by xp.toNat
decreasing_by
  obtain ⟨h1, h2⟩ := h
  omega

/-- `awardXP` (src/main.js lines 424-438): add the award to `player.xp`,
then consume level thresholds while enough XP remains. -/
def awardXP (p : Player) (xp : Int) : Player :=
  let r := awardLoop p.level (p.xp + xp)
  { level := r.1, xp := r.2 }

/-- The `while (p.xp < 0 && p.level > 1)` loop of `uncompleteQuest`
(src/main.js line 465): decrement the level, then add back the threshold of
the new (decremented) level. -/
def revertLoop (level : Nat) (xp : Int) : Nat × Int :=
  if h : xp < 0 ∧ 1 < level then
    revertLoop (level - 1) (xp + getXPForNextLevel (level - 1))
  else
    (level, xp)
termination_by level
decreasing_by
  omega

/-- The player-state mutation of `uncompleteQuest` (src/main.js lines
463-466): subtract the completion's `xpEarned`, walk levels down while the
running XP is negative, and finally clamp at `xp = 0` if still negative at
level 1. -/
def revertXP (p : Player) (xpEarned : Int) : Player :=
  let r := revertLoop p.level (p.xp - xpEarned)
  { level := r.1, xp := if r.2 < 0 then 0 else r.2 }

/-- `calculateXP` (src/main.js lines 418-422).  The JS condition
`estimateMinutes && estimateMinutes > 0` is true exactly when the estimate
is present and positive (`null` and `0` are both falsy). -/
def calculateXP (estimateMinutes : Option ℚ) (actualMinutes : ℚ) : Int :=
  match estimateMinutes with
  | some e => if 0 < e then round (max e actualMinutes * xpPerMinute) else flatXp
  | none => flatXp

/-- The PlayerState invariant of the spec: `level ≥ 1`, `xp ≥ 0`, and `xp`
strictly below the XP required for the current level. -/
def PlayerValid (p : Player) : Prop :=
  1 ≤ p.level ∧ 0 ≤ p.xp ∧ p.xp < (getXPForNextLevel p.level : Int)

/-- Player states reachable from the initial `{ level: 1, xp: 0 }` through
the two ledger operations.  `completeQuest` only awards `calculateXP`
results and `uncompleteQuest` only reverts a stored `xpEarned`, both of
which are nonnegative, hence the `0 ≤ x` side conditions. -/
inductive ReachablePlayer : Player → Prop
  | init : ReachablePlayer { level := 1, xp := 0 }
  | award (p : Player) (x : Int) : ReachablePlayer p → 0 ≤ x →
      ReachablePlayer (awardXP p x)
  | revert (p : Player) (x : Int) : ReachablePlayer p → 0 ≤ x →
      ReachablePlayer (revertXP p x)

/- ===================== Schedule evaluator ===================== -/

/-- `DAY_KEYS` (src/main.js line 44), indexed like `Date.getDay()`. -/
def DAY_KEYS : List String := ["sun", "mon", "tue", "wed", "thu", "fri", "sat"]

/-- `WEEKDAYS` (src/main.js line 47). -/
def WEEKDAYS : List String := ["mon", "tue", "wed", "thu", "fri"]

/-- `WEEKENDS` (src/main.js line 48). -/
def WEEKENDS : List String := ["sat", "sun"]

/-- Characters on which `s.split(/[\s,]+/)` splits: commas and whitespace.
(`Char.isWhitespace` covers the ASCII whitespace the schedule strings can
contain.) -/
def isSep (c : Char) : Bool := c == ',' || c.isWhitespace

/-- JS `String.prototype.trim` on a character list. -/
def trimChars (l : List Char) : List Char :=
  ((l.dropWhile Char.isWhitespace).reverse.dropWhile Char.isWhitespace).reverse

/-- `s.split(/[\s,]+/).filter(Boolean)`: split on runs of separators and
drop empty pieces.  The accumulator `cur` holds the current token reversed. -/
def splitTokens : List Char → List Char → List (List Char)
  | [], cur => if cur.isEmpty then [] else [cur.reverse]
  | c :: rest, cur =>
    if isSep c then
      if cur.isEmpty then splitTokens rest [] else cur.reverse :: splitTokens rest []
    else
      splitTokens rest (c :: cur)

/-- JS `tok.split('-')`: keeps empty pieces, and `"".split('-') = [""]`. -/
def splitDash : List Char → List Char → List (List Char)
  | [], cur => [cur.reverse]
  | c :: rest, cur =>
    if c == '-' then cur.reverse :: splitDash rest []
    else splitDash rest (c :: cur)

/-- `normDay` (src/main.js lines 90-94): trim, lower-case, and return the
first entry of `DAY_KEYS` that the token starts with. -/
def normDay (v : List Char) : Option String :=
  let s := (trimChars v).map Char.toLower
  DAY_KEYS.find? (fun k => k.data.isPrefixOf s)

/-- JS `Set.prototype.add` on the insertion-ordered day list (membership is
all that is ever read from the set). -/
def addDay (days : List String) (d : String) : List String :=
  if d ∈ days then days else days ++ [d]

/-- The `for (let i = 0; i < 7; i++)` range walk of `parseSchedule`
(src/main.js lines 141-145): add `DAY_KEYS[(start + i) % 7]` and stop just
after adding the end day `B`. -/
def walkRange (startIdx : Nat) (B : String) : Nat → List String → List String
  | 0, days => days
  | fuel + 1, days =>
    let key := DAY_KEYS.getD (startIdx % 7) ""
    let days1 := addDay days key
    if key == B then days1 else walkRange (startIdx + 1) B fuel days1

/-- One iteration of the token loop of `parseSchedule` (src/main.js lines
136-146).  `const [a, b] = tok.split('-')` leaves `b` undefined when there
is no dash and `""` when the dash ends the token; both are falsy, so both
are embedded as the empty list. -/
def addToken (days : List String) (tok : List Char) : List String :=
  let parts := splitDash tok []
  let a := parts.headD []
  let b := parts.getD 1 []
  if b.isEmpty then
    match normDay a with
    | some A => addDay days A
    | none => days
  else
    match normDay a, normDay b with
    | some A, some B => walkRange (DAY_KEYS.indexOf A) B 7 days
    | _, _ => days

/-- The parse result `{ kind, days }` of `parseSchedule`. -/
structure Schedule where
  kind : String
  days : List String
deriving DecidableEq, Repr

/-- `parseSchedule` (src/main.js lines 129-148). -/
def parseSchedule (raw : String) : Schedule :=
  let s := (trimChars raw.data).map Char.toLower
  if s.isEmpty || s == "daily".data || s == "all".data || s == "everyday".data then
    { kind := "daily", days := DAY_KEYS }
  else if s == "weekdays".data then { kind := "weekdays", days := WEEKDAYS }
  else if s == "weekends".data then { kind := "weekends", days := WEEKENDS }
  else { kind := "days", days := (splitTokens s []).foldl addToken [] }

/-- `isScheduledOnDate` (src/main.js line 150); the date enters only through
`date.getDay()`, passed here as `getDay : Nat` (0 = Sunday .. 6 = Saturday). -/
def isScheduledOnDate (schedule : String) (getDay : Nat) : Bool :=
  (parseSchedule schedule).days.contains (DAY_KEYS.getD getDay "")

/- ===================== Quest log state ===================== -/

/-- Quest ids are opaque strings produced by `genId`. -/
abbrev QID := String

/-- Logical-day strings as produced by `todayStr` (`"YYYY-MM-DD"`). -/
abbrev Day := String

/-- A quest record (src/main.js lines 280-289). -/
structure Quest where
  id : QID
  name : String
  category : String
  schedule : String
  estimateMinutes : Option ℚ
  order : Option Int
  createdAt : Day
  archived : Bool
deriving DecidableEq, Repr

/-- A completion record (src/main.js lines 448-451). -/
structure Completion where
  questId : QID
  date : Day
  minutesSpent : Int
  xpEarned : Int
deriving DecidableEq, Repr

/-- `timerState` (src/main.js line 212). -/
structure TimerState where
  activeQuestId : Option QID
  startTime : Option ℚ
  pausedSessions : QID → ℚ

/-- The whole persisted record `questLog` (src/main.js lines 208-214). -/
structure QuestLog where
  quests : List Quest
  completions : List Completion
  player : Player
  timerState : TimerState
  day : Day

/-- `initializeQuestLog` (src/main.js lines 207-215); `t` is the value of
`todayStr(dailyResetHour)` at the time of the call. -/
def initializeQuestLog (t : Day) : QuestLog :=
  { quests := []
    completions := []
    player := { level := 1, xp := 0 }
    timerState := { activeQuestId := none, startTime := none, pausedSessions := fun _ => 0 }
    day := t }

/-- `isCompletedToday` (src/main.js lines 370-373); `today` is the value of
`todayStr(dailyResetHour)` at the time of the call. -/
def isCompletedToday (today : Day) (questId : QID) (s : QuestLog) : Bool :=
  s.completions.any (fun c => c.questId == questId && c.date == today)

/-- `getActiveElapsedMinutes` (src/main.js lines 386-389); `now` is
`Date.now()` at the time of the call. -/
def getActiveElapsedMinutes (now : ℚ) (s : QuestLog) : ℚ :=
  match s.timerState.activeQuestId, s.timerState.startTime with
  | some _, some st => max 0 ((now - st) / 60000)
  | _, _ => 0

/-- `getTotalMinutes` (src/main.js lines 390-393). -/
def getTotalMinutes (now : ℚ) (questId : QID) (s : QuestLog) : ℚ :=
  let paused := s.timerState.pausedSessions questId
  if s.timerState.activeQuestId = some questId then
    paused + getActiveElapsedMinutes now s
  else paused

/-- `pauseQuest` (src/main.js lines 408-414). -/
def pauseQuest (now : ℚ) (questId : QID) (s : QuestLog) : QuestLog :=
  if s.timerState.activeQuestId ≠ some questId then s
  else
    { s with timerState :=
        { activeQuestId := none
          startTime := none
          pausedSessions := fun q =>
            if q = questId then
              s.timerState.pausedSessions questId + getActiveElapsedMinutes now s
            else s.timerState.pausedSessions q } }

/-- `startQuest` (src/main.js lines 395-406), returning the new state and
the notice shown when the start is refused. -/
def startQuest (today : Day) (now : ℚ) (questId : QID) (s : QuestLog) :
    QuestLog × Option String :=
  if isCompletedToday today questId s then (s, some "Already completed today.")
  else
    match s.quests.find? (fun q => q.id == questId) with
    | none => (s, some "❌ Quest not found")
    | some q =>
      if q.archived then (s, some "📦 This quest is archived. Unarchive it to start.")
      else
        let s1 :=
          match s.timerState.activeQuestId with
          | some a => if a ≠ questId then pauseQuest now a s else s
          | none => s
        ({ s1 with timerState :=
            { s1.timerState with activeQuestId := some questId, startTime := some now } },
         none)

/-- `resumeQuest` (src/main.js line 416): defined as `startQuest`. -/
def resumeQuest (today : Day) (now : ℚ) (questId : QID) (s : QuestLog) :
    QuestLog × Option String :=
  startQuest today now questId s

/-- `completeQuest` (src/main.js lines 442-457), returning the new state and
the notice.  `delete s.pausedSessions[id]` is embedded as "set to 0" (see
the header note). -/
def completeQuest (today : Day) (now : ℚ) (quest : Quest) (s : QuestLog) :
    QuestLog × Option String :=
  if quest.archived then (s, some "❌ Cannot complete archived quest.")
  else if isCompletedToday today quest.id s then (s, some "Already completed today.")
  else
    let minutes := getTotalMinutes now quest.id s
    let xp := calculateXP quest.estimateMinutes minutes
    let ts0 := s.timerState
    let ts1 :=
      if ts0.activeQuestId = some quest.id then
        { ts0 with activeQuestId := none, startTime := none }
      else ts0
    let ts2 :=
      { ts1 with pausedSessions := fun q => if q = quest.id then 0 else ts1.pausedSessions q }
    ({ s with
        player := awardXP s.player xp
        completions := s.completions ++
          [{ questId := quest.id, date := today, minutesSpent := round minutes, xpEarned := xp }]
        timerState := ts2 },
     some ("✓ " ++ quest.name ++ " completed! +" ++ toString xp ++ " XP"))

/-- `ensureDailyRollover` (src/main.js lines 246-265); `t` is the freshly
computed `todayStr(dailyResetHour)`. -/
def ensureDailyRollover (t : Day) (s : QuestLog) : QuestLog :=
  if s.day ≠ t then
    { s with
        timerState := { activeQuestId := none, startTime := none, pausedSessions := fun _ => 0 }
        day := t }
  else s

/-- The validation step of `loadQuestLog` (src/main.js lines 217-232): a
structurally valid parsed record replaces the in-memory log, otherwise the
previously initialized in-memory log is kept. -/
def loadQuestLog (parsed : Option QuestLog) (current : QuestLog) : QuestLog :=
  match parsed with
  | some ql => ql
  | none => current

/-- The load-and-startup path of `onload` (src/main.js lines 184-191):
inside `onLayoutReady` the plugin runs `loadQuestLog()` and then
`ensureDailyRollover(true)`.  `t` is the logical today at startup; the
in-memory log before loading is `initializeQuestLog t` (src/main.js line
172). -/
def startupPath (t : Day) (parsed : Option QuestLog) : QuestLog :=
  ensureDailyRollover t (loadQuestLog parsed (initializeQuestLog t))

/- ===================== Registry ordering ===================== -/

/-- Stable insertion of a quest into a list sorted by `(order ?? 0)`.  JS
`Array.prototype.sort` is a stable sort on the comparator
`(a.order ?? 0) - (b.order ?? 0)`; a stable insertion sort computes the
same permutation, and no theorem below depends on the algorithm beyond it
being a permutation. -/
def insertByOrder (q : Quest) : List Quest → List Quest
  | [] => [q]
  | r :: rs =>
    if (r.order.getD 0 : Int) < q.order.getD 0 then r :: insertByOrder q rs
    else q :: r :: rs

/-- `quests.sort((a, b) => (a.order ?? 0) - (b.order ?? 0))` as a stable
insertion sort. -/
def sortByOrder : List Quest → List Quest
  | [] => []
  | q :: qs => insertByOrder q (sortByOrder qs)

/-- `getActiveQuests` (src/main.js lines 272-277): non-archived quests
sorted by order. -/
def getActiveQuests (s : QuestLog) : List Quest :=
  sortByOrder (s.quests.filter (fun q => !q.archived))

/-- Mutation of the first quest with the given id (`quests.find` followed by
`q.order = v`; a missing id is a no-op). -/
def setOrderFirst (id : QID) (v : Int) : List Quest → List Quest
  | [] => []
  | q :: qs =>
    if q.id = id then { q with order := some v } :: qs
    else q :: setOrderFirst id v qs

/-- `questIds.forEach((id, i) => { ... q.order = base + i })`
(src/main.js lines 355-358). -/
def assignOrders (base : Int) (i : Nat) : List QID → List Quest → List Quest
  | [], qs => qs
  | id :: ids, qs => assignOrders base (i + 1) ids (setOrderFirst id (base + i) qs)

/-- `quests.sort(...).forEach((q, i) => (q.order = i))`: renumber a list
with consecutive orders starting at `i`. -/
def renumberFrom (i : Nat) : List Quest → List Quest
  | [] => []
  | q :: qs => { q with order := some (i : Int) } :: renumberFrom (i + 1) qs

/-- `reorderQuests` (src/main.js lines 352-361): compute the base offset as
the minimum existing order in the target category, assign `base + i` to the
dragged ids, then re-sort and renumber the entire `quests` array 0..N-1. -/
def reorderQuests (questIds : List QID) (category : String) (s : QuestLog) : QuestLog :=
  let inCat := s.quests.filter (fun q => q.category == category)
  let base : Int :=
    match (inCat.map (fun q => q.order.getD 0)).min? with
    | some m => m
    | none => 0
  let quests1 := assignOrders base 0 questIds s.quests
  let quests2 := renumberFrom 0 (sortByOrder quests1)
  { s with quests := quests2 }

/- ===================== Timer operation sequences ===================== -/

/-- The user-triggered timer operations of §4.2: `start`, `pause`, `resume`,
each happening at some wall-clock instant. -/
inductive TimerOp where
  | start (now : ℚ) (id : QID)
  | pause (now : ℚ) (id : QID)
  | resume (now : ℚ) (id : QID)

/-- Apply one timer operation to the log (dropping the notices). -/
def applyTimerOp (today : Day) (s : QuestLog) : TimerOp → QuestLog
  | .start now id => (startQuest today now id s).1
  | .pause now id => pauseQuest now id s
  | .resume now id => (resumeQuest today now id s).1

/-- Apply a sequence of timer operations in order. -/
def applyTimerOps (today : Day) (s : QuestLog) (ops : List TimerOp) : QuestLog :=
  ops.foldl (applyTimerOp today) s

/-- Number of completion records for a given quest and day. -/
def countCompletionsFor (qid : QID) (d : Day) (cs : List Completion) : Nat :=
  (cs.filter (fun c => c.questId == qid && c.date == d)).length

/- ===================== Concrete sample states ===================== -/

/-- A concrete unarchived quest with an estimate, used in witnesses. -/
def sampleQuestA : Quest :=
  { id := "a", name := "A", category := "x", schedule := "daily",
    estimateMinutes := some 30, order := some 0, createdAt := "2025-01-01", archived := false }

/-- A concrete unarchived quest without an estimate, used in witnesses. -/
def sampleQuestB : Quest :=
  { id := "b", name := "B", category := "x", schedule := "daily",
    estimateMinutes := none, order := some 1, createdAt := "2025-01-01", archived := false }

/-- A log in which quest `"a"` is currently active. -/
def sampleTimerLog : QuestLog :=
  { quests := [sampleQuestA, sampleQuestB], completions := [],
    player := { level := 1, xp := 0 },
    timerState := { activeQuestId := some "a", startTime := some 0, pausedSessions := fun _ => 0 },
    day := "2025-01-01" }

/-- An archived quest with order 0 in category `"x"`. -/
def qArchX : Quest :=
  { id := "qa", name := "Arch", category := "x", schedule := "daily",
    estimateMinutes := none, order := some 0, createdAt := "2025-01-01", archived := true }

/-- An active (non-archived) quest with order 1 in category `"x"`. -/
def qActX : Quest :=
  { id := "qb", name := "Act", category := "x", schedule := "daily",
    estimateMinutes := none, order := some 1, createdAt := "2025-01-01", archived := false }

/-- A log holding one archived and one non-archived quest. -/
def reorderCounterState : QuestLog :=
  { quests := [qArchX, qActX], completions := [], player := { level := 1, xp := 0 },
    timerState := { activeQuestId := none, startTime := none, pausedSessions := fun _ => 0 },
    day := "2025-01-01" }

/-- A persisted record whose timer was still active when the process died:
`activeQuestId` and `startTime` are both set and nothing is banked yet. -/
def staleActiveRecord : QuestLog :=
  { quests := [], completions := [], player := { level := 1, xp := 0 },
    timerState := { activeQuestId := some "q", startTime := some 0, pausedSessions := fun _ => 0 },
    day := "2025-01-01" }

/- ===================== Ledger lemmas ===================== -/

theorem sqrt_eq_of_bounds (m k : Nat) (h1 : k * k ≤ m) (h2 : m < (k + 1) * (k + 1)) :
    Nat.sqrt m = k := by
  have a := Nat.le_sqrt.mpr h1
  have b := Nat.sqrt_lt.mpr h2
  omega

theorem getXPForNextLevel_pos (l : Nat) (hl : 1 ≤ l) : 0 < getXPForNextLevel l := by
  have h3 : 1 ≤ l ^ 3 := Nat.one_le_pow 3 l (by omega)
  have hs : 100 ≤ Nat.sqrt (10000 * l ^ 3) := Nat.le_sqrt.mpr (by nlinarith)
  simp only [getXPForNextLevel]
  split <;> omega

theorem getXPForNextLevel_one : getXPForNextLevel 1 = 100 := by
  have h : Nat.sqrt (10000 * 1 ^ 3) = 100 :=
    sqrt_eq_of_bounds _ 100 (by norm_num) (by norm_num)
  simp only [getXPForNextLevel, h]
  norm_num

theorem awardLoop_spec (n : Nat) : ∀ (L : Nat) (total : Int), total.toNat ≤ n → 1 ≤ L →
    0 ≤ total →
    L ≤ (awardLoop L total).1 ∧
    0 ≤ (awardLoop L total).2 ∧
    (awardLoop L total).2 < (getXPForNextLevel (awardLoop L total).1 : Int) ∧
    total = (awardLoop L total).2 +
      ∑ l ∈ Finset.Ico L (awardLoop L total).1, (getXPForNextLevel l : Int) := by
  induction n with
  | zero =>
    intro L total hbound hL h0
    have htot : total = 0 := by omega
    subst htot
    have hpos := getXPForNextLevel_pos L hL
    rw [awardLoop, dif_neg (by omega)]
    refine ⟨le_refl L, le_refl 0, ?_, ?_⟩
    · show (0 : Int) < (getXPForNextLevel L : Int)
      exact_mod_cast hpos
    · simp
  | succ n ih =>
    intro L total hbound hL h0
    by_cases hc : 0 < getXPForNextLevel L ∧ (getXPForNextLevel L : Int) ≤ total
    · rw [awardLoop, dif_pos hc]
      obtain ⟨hc1, hc2⟩ := hc
      have hcast : (1 : Int) ≤ (getXPForNextLevel L : Int) := by exact_mod_cast hc1
      have h2 := ih (L + 1) (total - getXPForNextLevel L) (by omega) (by omega) (by omega)
      obtain ⟨hA, hB, hC, hD⟩ := h2
      refine ⟨by omega, hB, hC, ?_⟩
      have hLlt : L < (awardLoop (L + 1) (total - (getXPForNextLevel L : Int))).1 := by omega
      rw [Finset.sum_eq_sum_Ico_succ_bot hLlt]
      omega
    · rw [awardLoop, dif_neg hc]
      have hpos := getXPForNextLevel_pos L hL
      have hlt : total < (getXPForNextLevel L : Int) := by
        by_contra hx
        exact hc ⟨hpos, by omega⟩
      refine ⟨le_refl L, h0, hlt, ?_⟩
      simp

theorem awardLoop_props (L : Nat) (total : Int) (hL : 1 ≤ L) (h0 : 0 ≤ total) :
    L ≤ (awardLoop L total).1 ∧
    0 ≤ (awardLoop L total).2 ∧
    (awardLoop L total).2 < (getXPForNextLevel (awardLoop L total).1 : Int) ∧
    total = (awardLoop L total).2 +
      ∑ l ∈ Finset.Ico L (awardLoop L total).1, (getXPForNextLevel l : Int) :=
  awardLoop_spec total.toNat L total (le_refl _) hL h0

theorem revertLoop_descend (L : Nat) (xp : Int) (hL : 1 ≤ L) (h0 : 0 ≤ xp)
    (hlt : xp < (getXPForNextLevel L : Int)) :
    ∀ M : Nat, L ≤ M →
      revertLoop M (xp - ∑ l ∈ Finset.Ico L M, (getXPForNextLevel l : Int)) = (L, xp) := by
  intro M hM
  induction M, hM using Nat.le_induction with
  | base =>
    rw [Finset.Ico_self, Finset.sum_empty, sub_zero, revertLoop, dif_neg (by omega)]
  | succ M hM ih =>
    rw [Finset.sum_Ico_succ_top hM]
    have hmem : L ∈ Finset.Ico L (M + 1) := Finset.mem_Ico.mpr ⟨le_refl L, by omega⟩
    have hsum : (getXPForNextLevel L : Int) ≤
        ∑ l ∈ Finset.Ico L (M + 1), (getXPForNextLevel l : Int) :=
      Finset.single_le_sum (f := fun l => (getXPForNextLevel l : Int))
        (fun i _ => by positivity) hmem
    rw [Finset.sum_Ico_succ_top hM] at hsum
    have hneg : xp - (∑ l ∈ Finset.Ico L M, (getXPForNextLevel l : Int) +
        (getXPForNextLevel M : Int)) < 0 := by omega
    rw [revertLoop, dif_pos ⟨hneg, by omega⟩]
    simp only [Nat.add_sub_cancel]
    have heq : xp - (∑ l ∈ Finset.Ico L M, (getXPForNextLevel l : Int) +
        (getXPForNextLevel M : Int)) + (getXPForNextLevel M : Int) =
        xp - ∑ l ∈ Finset.Ico L M, (getXPForNextLevel l : Int) := by ring
    rw [heq]
    exact ih

theorem revertLoop_inv (L : Nat) : ∀ (v : Int), 1 ≤ L → v < (getXPForNextLevel L : Int) →
    1 ≤ (revertLoop L v).1 ∧ (revertLoop L v).2 < (getXPForNextLevel (revertLoop L v).1 : Int) := by
  induction L with
  | zero => intro v hL _; omega
  | succ L ih =>
    intro v hL hv
    by_cases hc : v < 0 ∧ 1 < L + 1
    · rw [revertLoop, dif_pos hc]
      simp only [Nat.add_sub_cancel]
      exact ih (v + getXPForNextLevel L) (by omega) (by omega)
    · rw [revertLoop, dif_neg hc]
      exact ⟨hL, hv⟩

theorem awardXP_valid (p : Player) (x : Int) (hv : PlayerValid p) (hx : 0 ≤ x) :
    PlayerValid (awardXP p x) := by
  obtain ⟨h1, h2, h3⟩ := hv
  have h := awardLoop_props p.level (p.xp + x) h1 (by omega)
  simp only [PlayerValid, awardXP]
  exact ⟨by omega, h.2.1, h.2.2.1⟩

theorem revertXP_valid (p : Player) (x : Int) (hv : PlayerValid p) (hx : 0 ≤ x) :
    PlayerValid (revertXP p x) := by
  obtain ⟨h1, h2, h3⟩ := hv
  have h := revertLoop_inv p.level (p.xp - x) h1 (by omega)
  obtain ⟨hA, hB⟩ := h
  have hp := getXPForNextLevel_pos (revertLoop p.level (p.xp - x)).1 hA
  refine ⟨hA, ?_, ?_⟩
  · simp only [revertXP]
    split <;> omega
  · simp only [revertXP]
    split
    · exact_mod_cast hp
    · exact hB

/- ===================== C1: award/revert invertibility ===================== -/

/-- C1: from any player state with `level ≥ 1`, `0 ≤ xp` and
`xp < getXPForNextLevel level`, awarding any `x ≥ 0` and then reverting the
same `x` restores exactly the original `(level, xp)`.  Under these
preconditions the level-1 floor clamp can never engage during the revert
(the downward walk lands exactly on the original nonnegative `xp`), so the
claim's exception clause is vacuous and the round trip is exact. -/
theorem award_then_revert_exact (p : Player) (x : Int) (hlev : 1 ≤ p.level)
    (hxp : 0 ≤ p.xp) (hlt : p.xp < (getXPForNextLevel p.level : Int)) (hx : 0 ≤ x) :
    revertXP (awardXP p x) x = p := by
  have h := awardLoop_props p.level (p.xp + x) hlev (by omega)
  obtain ⟨hA, hB, hC, hD⟩ := h
  simp only [awardXP, revertXP]
  have hr : (awardLoop p.level (p.xp + x)).2 - x =
      p.xp - ∑ l ∈ Finset.Ico p.level (awardLoop p.level (p.xp + x)).1,
        (getXPForNextLevel l : Int) := by
    omega
  rw [hr, revertLoop_descend p.level p.xp hlev hxp hlt _ hA]
  show ({ level := p.level, xp := if p.xp < 0 then 0 else p.xp } : Player) = p
  rw [if_neg (by omega : ¬ p.xp < 0)]

/-- Witness for C1 at `(level, xp) = (1, 50)` and `x = 200` (the award
crosses one level boundary: `(1, 50) → (2, 150) → (1, 50)`). -/
theorem award_then_revert_exact_witness :
    ((50 : Int) < (getXPForNextLevel 1 : Int) ∧ 0 ≤ (200 : Int)) ∧
    revertXP (awardXP { level := 1, xp := 50 } 200) 200 = { level := 1, xp := 50 } := by
  have h : (50 : Int) < (getXPForNextLevel 1 : Int) := by
    rw [getXPForNextLevel_one]
    norm_num
  exact ⟨⟨h, by decide⟩,
    award_then_revert_exact { level := 1, xp := 50 } 200 (by decide) (by decide) h (by decide)⟩

/- ===================== C4: player invariant ===================== -/

/-- C4: every player state reachable from the initial `{ level: 1, xp: 0 }`
through award and revert operations (with the nonnegative amounts the code
passes) satisfies `level ≥ 1`, `xp ≥ 0` and `xp < getXPForNextLevel level`:
the normalization loops re-establish the invariant after every single
operation, not just eventually. -/
theorem reachable_player_invariant (p : Player) (h : ReachablePlayer p) : PlayerValid p := by
  induction h with
  | init =>
    unfold PlayerValid
    refine ⟨by decide, by decide, ?_⟩
    show (0 : Int) < (getXPForNextLevel 1 : Int)
    rw [getXPForNextLevel_one]
    norm_num
  | award p x hp hx ih => exact awardXP_valid p x ih hx
  | revert p x hp hx ih => exact revertXP_valid p x ih hx

/-- Witness for C4: the state after awarding 150 XP from the initial state
(which levels up to `(2, 50)`) satisfies the invariant. -/
theorem reachable_player_invariant_witness :
    PlayerValid (awardXP { level := 1, xp := 0 } 150) :=
  reachable_player_invariant _ (ReachablePlayer.award _ _ ReachablePlayer.init (by decide))

/- ===================== C7: calculateXP rule ===================== -/

/-- C7: `calculateXP` returns `round(max(estimate, actual) * xpPerMinute)`
exactly when the estimate is present and positive (so an actual below the
estimate still earns the estimate's XP), and the flat constant `flatXp`
otherwise; in particular estimate 30 / actual 45 gives 45, estimate 30 /
actual 10 gives 30, and no estimate gives 10. -/
theorem calculateXP_spec :
    (∀ (e a : ℚ), 0 < e → calculateXP (some e) a = round (max e a * xpPerMinute)) ∧
    (∀ (e a : ℚ), ¬ 0 < e → calculateXP (some e) a = flatXp) ∧
    (∀ a : ℚ, calculateXP none a = flatXp) ∧
    calculateXP (some 30) 45 = 45 ∧
    calculateXP (some 30) 10 = 30 ∧
    calculateXP none 0 = 10 := by
  refine ⟨?_, ?_, fun a => rfl, ?_, ?_, rfl⟩
  · intro e a he
    simp [calculateXP, he]
  · intro e a he
    simp [calculateXP, he]
  · show (if 0 < (30 : ℚ) then round (max (30 : ℚ) 45 * xpPerMinute) else flatXp) = 45
    rw [if_pos (by norm_num), max_eq_right (by norm_num : (30 : ℚ) ≤ 45)]
    norm_num [xpPerMinute, round_eq]
  · show (if 0 < (30 : ℚ) then round (max (30 : ℚ) 10 * xpPerMinute) else flatXp) = 30
    rw [if_pos (by norm_num), max_eq_left (by norm_num : (10 : ℚ) ≤ 30)]
    norm_num [xpPerMinute, round_eq]

/-- Witness for C7's estimate branch at estimate 30, actual 45. -/
theorem calculateXP_spec_witness :
    (0 < (30 : ℚ)) ∧ calculateXP (some 30) 45 = round (max 30 45 * xpPerMinute) :=
  ⟨by norm_num, calculateXP_spec.1 30 45 (by norm_num)⟩

/- ===================== C5: empty day set ===================== -/

/-- C5 counterexample: the schedule `"xyz"` consists of a single
unrecognized token, so its parsed day set is empty — and `isScheduledOnDate`
then returns `false` on all seven weekdays, not `true`: `parseSchedule` has
no empty-set-to-daily fallback. -/
theorem schedule_empty_set_counterexample :
    (parseSchedule "xyz").days = [] ∧
    ((List.range 7).all (fun d => !(isScheduledOnDate "xyz" d))) = true :=
  ⟨by decide, by decide⟩

/-- C5 amended: for every schedule string whose token-by-token parse yields
an empty day set, the evaluator schedules nothing: `isDue` returns `false`
for that schedule on every date (there is no default to "daily"). -/
theorem schedule_empty_set_never_due (schedule : String) (d : Nat)
    (h : (parseSchedule schedule).days = []) : isScheduledOnDate schedule d = false := by
  simp [isScheduledOnDate, h]

/-- Witness for the amended C5 at schedule `"xyz"` and Wednesday. -/
theorem schedule_empty_set_never_due_witness :
    ((parseSchedule "xyz").days = []) ∧ isScheduledOnDate "xyz" 3 = false :=
  ⟨by decide, schedule_empty_set_never_due "xyz" 3 (by decide)⟩

/- ===================== C6: rollover frame ===================== -/

/-- C6: whenever the stored day differs from the freshly computed logical
today, `ensureDailyRollover` clears the entire timer state (active slot and
start time to `none`, all paused-session buckets to zero) and stores the
new day string; and in every case (day changed or not) it leaves the
completions list and the player untouched. -/
theorem rollover_clears_timer_preserves_rest (s : QuestLog) (t : Day) :
    (ensureDailyRollover t s).completions = s.completions ∧
    (ensureDailyRollover t s).player = s.player ∧
    (s.day ≠ t →
      (ensureDailyRollover t s).timerState.activeQuestId = none ∧
      (ensureDailyRollover t s).timerState.startTime = none ∧
      (ensureDailyRollover t s).timerState.pausedSessions = (fun _ => 0) ∧
      (ensureDailyRollover t s).day = t) := by
  unfold ensureDailyRollover
  by_cases h : s.day ≠ t
  · rw [if_pos h]
    exact ⟨rfl, rfl, fun _ => ⟨rfl, rfl, rfl, rfl⟩⟩
  · rw [if_neg h]
    exact ⟨rfl, rfl, fun hc => absurd hc h⟩

/-- Witness for C6: rolling `staleActiveRecord` over to a different day. -/
theorem rollover_clears_timer_preserves_rest_witness :
    (staleActiveRecord.day ≠ "2025-01-02") ∧
    ((ensureDailyRollover "2025-01-02" staleActiveRecord).completions =
        staleActiveRecord.completions ∧
      (ensureDailyRollover "2025-01-02" staleActiveRecord).player = staleActiveRecord.player ∧
      (staleActiveRecord.day ≠ "2025-01-02" →
        (ensureDailyRollover "2025-01-02" staleActiveRecord).timerState.activeQuestId = none ∧
        (ensureDailyRollover "2025-01-02" staleActiveRecord).timerState.startTime = none ∧
        (ensureDailyRollover "2025-01-02" staleActiveRecord).timerState.pausedSessions =
          (fun _ => 0) ∧
        (ensureDailyRollover "2025-01-02" staleActiveRecord).day = "2025-01-02")) :=
  ⟨by decide, rollover_clears_timer_preserves_rest staleActiveRecord "2025-01-02"⟩

/- ===================== C2: single timer + implicit pause ===================== -/

/-- C2: (a) after any sequence of start/pause/resume operations at most one
quest holds the active slot — the embedded `timerState` carries the slot as
a single `Option QID` field exactly as the JS record does, so two
simultaneously active quests are impossible in every state the operations
produce; and (b) starting quest `B` while a different quest `A` is active
(with `B` present, unarchived and not completed today) first banks A's live
elapsed minutes into `pausedSessions[A]` and only then makes `B` active
with a fresh `startTime` — an implicit pause, not a drop. -/
theorem single_timer_and_implicit_pause :
    (∀ (today : Day) (s : QuestLog) (ops : List TimerOp) (q1 q2 : QID),
      (applyTimerOps today s ops).timerState.activeQuestId = some q1 →
      (applyTimerOps today s ops).timerState.activeQuestId = some q2 → q1 = q2) ∧
    (∀ (today : Day) (now : ℚ) (s : QuestLog) (A B : QID) (qB : Quest),
      s.timerState.activeQuestId = some A → A ≠ B →
      isCompletedToday today B s = false →
      s.quests.find? (fun q => q.id == B) = some qB →
      qB.archived = false →
      (startQuest today now B s).1.timerState.activeQuestId = some B ∧
      (startQuest today now B s).1.timerState.startTime = some now ∧
      (startQuest today now B s).1.timerState.pausedSessions A =
        s.timerState.pausedSessions A + getActiveElapsedMinutes now s) := by
  constructor
  · intro today s ops q1 q2 h1 h2
    rw [h1] at h2
    exact Option.some.inj h2
  · intro today now s A B qB hact hAB hcomp hfind harch
    simp only [startQuest, hcomp, hfind, harch, hact, Bool.false_eq_true, if_false]
    simp only [ne_eq, hAB, not_false_iff, if_true, pauseQuest, hact]
    simp [hAB]

/-- Witness for C2 part (b): quest `"a"` is active in `sampleTimerLog` and
quest `"b"` is started at time 5. -/
theorem single_timer_and_implicit_pause_witness :
    (sampleTimerLog.timerState.activeQuestId = some "a" ∧ "a" ≠ "b" ∧
      isCompletedToday "2025-01-01" "b" sampleTimerLog = false ∧
      sampleTimerLog.quests.find? (fun q => q.id == "b") = some sampleQuestB ∧
      sampleQuestB.archived = false) ∧
    ((startQuest "2025-01-01" 5 "b" sampleTimerLog).1.timerState.activeQuestId = some "b" ∧
      (startQuest "2025-01-01" 5 "b" sampleTimerLog).1.timerState.startTime = some 5 ∧
      (startQuest "2025-01-01" 5 "b" sampleTimerLog).1.timerState.pausedSessions "a" =
        sampleTimerLog.timerState.pausedSessions "a" +
          getActiveElapsedMinutes 5 sampleTimerLog) :=
  ⟨⟨rfl, by decide, by decide, by decide, rfl⟩,
    single_timer_and_implicit_pause.2 "2025-01-01" 5 sampleTimerLog "a" "b" sampleQuestB
      rfl (by decide) (by decide) (by decide) rfl⟩

/- ===================== C10: restart of the active quest ===================== -/

/-- C10: `resumeQuest` is literally `startQuest`; and calling `startQuest`
on the quest that is already active (present, unarchived, not completed
today) leaves every `pausedSessions` bucket unchanged and resets
`startTime` to the current instant, so the live interval accumulated since
the previous `startTime` is discarded rather than banked (the implicit
pause only fires when the active quest differs from the started one). -/
theorem restart_active_discards_elapsed :
    (∀ (today : Day) (now : ℚ) (q : QID) (s : QuestLog),
      resumeQuest today now q s = startQuest today now q s) ∧
    (∀ (today : Day) (now : ℚ) (q : QID) (s : QuestLog) (quest : Quest),
      s.timerState.activeQuestId = some q →
      isCompletedToday today q s = false →
      s.quests.find? (fun x => x.id == q) = some quest →
      quest.archived = false →
      (startQuest today now q s).1.timerState.pausedSessions =
        s.timerState.pausedSessions ∧
      (startQuest today now q s).1.timerState.activeQuestId = some q ∧
      (startQuest today now q s).1.timerState.startTime = some now) := by
  constructor
  · intro today now q s
    rfl
  · intro today now q s quest hact hcomp hfind harch
    simp only [startQuest, hcomp, hfind, harch, hact, Bool.false_eq_true, if_false]
    simp

/-- Witness for C10: restarting the already-active quest `"a"` of
`sampleTimerLog` at time 7. -/
theorem restart_active_discards_elapsed_witness :
    (sampleTimerLog.timerState.activeQuestId = some "a" ∧
      isCompletedToday "2025-01-01" "a" sampleTimerLog = false ∧
      sampleTimerLog.quests.find? (fun x => x.id == "a") = some sampleQuestA ∧
      sampleQuestA.archived = false) ∧
    ((startQuest "2025-01-01" 7 "a" sampleTimerLog).1.timerState.pausedSessions =
        sampleTimerLog.timerState.pausedSessions ∧
      (startQuest "2025-01-01" 7 "a" sampleTimerLog).1.timerState.activeQuestId = some "a" ∧
      (startQuest "2025-01-01" 7 "a" sampleTimerLog).1.timerState.startTime = some 7) :=
  ⟨⟨rfl, by decide, by decide, rfl⟩,
    restart_active_discards_elapsed.2 "2025-01-01" 7 "a" sampleTimerLog sampleQuestA
      rfl (by decide) (by decide) rfl⟩

/- ===================== C3: completion idempotence ===================== -/

theorem countCompletionsFor_append_single (qid : QID) (d : Day) (c : Completion)
    (cs : List Completion) :
    countCompletionsFor qid d (cs ++ [c]) =
      countCompletionsFor qid d cs +
        (if (c.questId == qid && c.date == d) = true then 1 else 0) := by
  simp only [countCompletionsFor, List.filter_append, List.length_append]
  split
  · rename_i hx
    simp [List.filter, hx]
  · rename_i hx
    rw [Bool.not_eq_true] at hx
    simp [List.filter, hx]

theorem not_completed_count_zero (today : Day) (qid : QID) (s : QuestLog)
    (h : isCompletedToday today qid s = false) :
    countCompletionsFor qid today s.completions = 0 := by
  simp only [isCompletedToday, List.any_eq_false] at h
  simp only [countCompletionsFor, List.length_eq_zero, List.filter_eq_nil_iff]
  intro c hc
  exact h c hc

theorem completeQuest_archived_noop (today : Day) (now : ℚ) (quest : Quest) (s : QuestLog)
    (ha : quest.archived = true) :
    completeQuest today now quest s = (s, some "❌ Cannot complete archived quest.") := by
  simp [completeQuest, ha]

theorem completeQuest_done_noop (today : Day) (now : ℚ) (quest : Quest) (s : QuestLog)
    (ha : quest.archived = false) (hdone : isCompletedToday today quest.id s = true) :
    completeQuest today now quest s = (s, some "Already completed today.") := by
  simp [completeQuest, ha, hdone]

/-- C3: completing a quest a second time on the same logical day is a no-op
that reports a notice and leaves the whole state — completions, player, and
timer — exactly as after the first call (so no additional XP is awarded);
and `completeQuest` preserves "at most one completion record per quest and
logical day". -/
theorem complete_idempotent (today : Day) (now1 now2 : ℚ) (quest : Quest) (s : QuestLog) :
    (completeQuest today now2 quest (completeQuest today now1 quest s).1).1 =
      (completeQuest today now1 quest s).1 ∧
    (quest.archived = false →
      (completeQuest today now2 quest (completeQuest today now1 quest s).1).2 =
        some "Already completed today.") ∧
    (∀ (qid : QID) (d : Day), countCompletionsFor qid d s.completions ≤ 1 →
      countCompletionsFor qid d (completeQuest today now1 quest s).1.completions ≤ 1) := by
  by_cases ha : quest.archived = true
  · rw [completeQuest_archived_noop today now1 quest s ha,
      completeQuest_archived_noop today now2 quest s ha]
    exact ⟨rfl, fun hf => by rw [hf] at ha; exact absurd ha (by simp),
      fun qid d h => h⟩
  · have ha2 : quest.archived = false := by rwa [Bool.not_eq_true] at ha
    by_cases hc : isCompletedToday today quest.id s = true
    · rw [completeQuest_done_noop today now1 quest s ha2 hc]
      rw [completeQuest_done_noop today now2 quest s ha2 hc]
      exact ⟨rfl, fun _ => rfl, fun qid d h => h⟩
    · have hc2 : isCompletedToday today quest.id s = false := by rwa [Bool.not_eq_true] at hc
      have hcompl : (completeQuest today now1 quest s).1.completions =
          s.completions ++
            [{ questId := quest.id, date := today,
               minutesSpent := round (getTotalMinutes now1 quest.id s),
               xpEarned := calculateXP quest.estimateMinutes (getTotalMinutes now1 quest.id s) }] := by
        simp [completeQuest, ha2, hc2]
      have hdone : isCompletedToday today quest.id (completeQuest today now1 quest s).1 = true := by
        rw [isCompletedToday, hcompl]
        simp
      rw [completeQuest_done_noop today now2 quest (completeQuest today now1 quest s).1 ha2 hdone]
      refine ⟨rfl, fun _ => rfl, ?_⟩
      intro qid d hle
      rw [hcompl, countCompletionsFor_append_single]
      split
      · rename_i hm
        simp only [Bool.and_eq_true, beq_iff_eq] at hm
        obtain ⟨hq, hd⟩ := hm
        subst hq
        subst hd
        have h0 := not_completed_count_zero today quest.id s hc2
        omega
      · omega

/-- Witness for C3: completing `sampleQuestA` twice on day `"2025-01-01"`
starting from a fresh log. -/
theorem complete_idempotent_witness :
    (sampleQuestA.archived = false ∧
      countCompletionsFor "a" "2025-01-01" (initializeQuestLog "2025-01-01").completions ≤ 1) ∧
    ((completeQuest "2025-01-01" 1 sampleQuestA
        (completeQuest "2025-01-01" 0 sampleQuestA (initializeQuestLog "2025-01-01")).1).2 =
      some "Already completed today.") ∧
    (countCompletionsFor "a" "2025-01-01"
        (completeQuest "2025-01-01" 0 sampleQuestA
          (initializeQuestLog "2025-01-01")).1.completions ≤ 1) :=
  ⟨⟨rfl, by decide⟩,
    (complete_idempotent "2025-01-01" 0 1 sampleQuestA (initializeQuestLog "2025-01-01")).2.1 rfl,
    (complete_idempotent "2025-01-01" 0 1 sampleQuestA
      (initializeQuestLog "2025-01-01")).2.2 "a" "2025-01-01" (by decide)⟩

/- ===================== C8: reorder renormalization ===================== -/

theorem setOrderFirst_length (id : QID) (v : Int) : ∀ l : List Quest,
    (setOrderFirst id v l).length = l.length := by
  intro l
  induction l with
  | nil => rfl
  | cons q qs ih =>
    simp only [setOrderFirst]
    split <;> simp [ih]

theorem assignOrders_length (base : Int) : ∀ (ids : List QID) (i : Nat) (qs : List Quest),
    (assignOrders base i ids qs).length = qs.length := by
  intro ids
  induction ids with
  | nil => intro i qs; rfl
  | cons id ids ih =>
    intro i qs
    simp only [assignOrders]
    rw [ih, setOrderFirst_length]

theorem insertByOrder_length (q : Quest) : ∀ l : List Quest,
    (insertByOrder q l).length = l.length + 1 := by
  intro l
  induction l with
  | nil => rfl
  | cons r rs ih =>
    simp only [insertByOrder]
    split <;> simp [ih]

theorem sortByOrder_length : ∀ l : List Quest, (sortByOrder l).length = l.length := by
  intro l
  induction l with
  | nil => rfl
  | cons q qs ih =>
    simp only [sortByOrder]
    rw [insertByOrder_length, ih]
    rfl

theorem renumberFrom_map_order : ∀ (l : List Quest) (i : Nat),
    (renumberFrom i l).map (fun q => q.order) =
      (List.range' i l.length).map (fun j => some (j : Int)) := by
  intro l
  induction l with
  | nil => intro i; rfl
  | cons q qs ih =>
    intro i
    simp only [renumberFrom, List.map_cons, List.length_cons, List.range'_succ]
    rw [ih]
    rfl

/-- C8 counterexample: in a log holding an archived quest (order 0) and a
non-archived quest (order 1), reordering leaves the full list renumbered
`[0, 1]`, but the *active* quest list then carries `[1]` — a gap, not the
dense `0..N-1` the claim asserts (its first conjunct, global duplicate
freedom, does hold, so the conjunction fails on the density part). -/
theorem reorder_active_dense_counterexample :
    ¬ ((((reorderQuests [] "x" reorderCounterState).quests.map (fun q => q.order)).Nodup) ∧
      (getActiveQuests (reorderQuests [] "x" reorderCounterState)).map (fun q => q.order) =
        (List.range (getActiveQuests (reorderQuests [] "x" reorderCounterState)).length).map
          (fun i => some (i : Int))) := by
  decide

/-- C8 amended: after `reorderQuests`, the *entire* quest list — archived
quests included — carries exactly the dense order values `0..N-1` in list
order (hence no two quests anywhere share an order value); the active
sublist alone may be gapped when archived quests occupy some of the
values. -/
theorem reorder_full_list_renumbered (s : QuestLog) (questIds : List QID) (category : String) :
    ((reorderQuests questIds category s).quests.map (fun q => q.order)) =
      (List.range s.quests.length).map (fun i => some (i : Int)) := by
  simp only [reorderQuests]
  rw [renumberFrom_map_order, sortByOrder_length, assignOrders_length, List.range_eq_range']

/- ===================== C9: load with a stale active timer ===================== -/

/-- C9 counterexample: `staleActiveRecord` is loaded with quest `"q"` still
active from before the shutdown, and the stored day equals the logical
today — after the whole load-and-startup path the active slot is *not*
cleared and nothing has been folded into `pausedSessions["q"]`: the current
code has no crash-recovery fold. -/
theorem load_no_recovery_counterexample :
    (startupPath "2025-01-01" (some staleActiveRecord)).timerState.activeQuestId = some "q" ∧
    (startupPath "2025-01-01" (some staleActiveRecord)).timerState.activeQuestId ≠ none ∧
    (startupPath "2025-01-01" (some staleActiveRecord)).timerState.pausedSessions "q" = 0 :=
  ⟨by decide, by decide, rfl⟩

/-- C9 amended: the load-and-startup path performs no recovery fold.  If the
stored day equals the logical today, the loaded record — active slot,
`startTime` and all paused buckets included — is returned untouched, so a
previously running timer simply keeps running across the restart; if the
stored day differs, rollover clears the entire timer state, discarding (not
banking) the elapsed time. -/
theorem startup_no_fold (loaded : QuestLog) (t : Day) :
    (loaded.day = t → startupPath t (some loaded) = loaded) ∧
    (loaded.day ≠ t →
      (startupPath t (some loaded)).timerState.activeQuestId = none ∧
      (startupPath t (some loaded)).timerState.startTime = none ∧
      (startupPath t (some loaded)).timerState.pausedSessions = (fun _ => 0)) := by
  unfold startupPath loadQuestLog ensureDailyRollover
  by_cases h : loaded.day = t
  · rw [if_neg (by simp [h])]
    exact ⟨fun _ => rfl, fun hc => absurd h hc⟩
  · rw [if_pos h]
    exact ⟨fun hc => absurd hc h, fun _ => ⟨rfl, rfl, rfl⟩⟩

/-- Witness for the amended C9: reloading `staleActiveRecord` on the same
logical day returns it untouched (timer still marked active). -/
theorem startup_no_fold_witness :
    (staleActiveRecord.day = "2025-01-01") ∧
    startupPath "2025-01-01" (some staleActiveRecord) = staleActiveRecord :=
  ⟨rfl, (startup_no_fold staleActiveRecord "2025-01-01").1 rfl⟩
